import Mathlib

/-!
Verification of the SSHMenu launcher (`sshmenu.go`) against its
specification.  The Go program is shallowly embedded: the configuration
data model, the search filter, the bell-stripping output filter, the
command resolution, the menu-navigation loop of `main` (with the
interactive widget, the config file and the child-process results
modelled as oracles), and the tail of the self-update routine are
translated into executable Lean definitions, and the specification's
claims are proved about them.
-/

namespace SSHMenu

/-! ## Data model (`Server`, `Project`, `Config` in sshmenu.go) -/

structure Server where
  name : String
  description : String
  command : String
deriving DecidableEq, Repr

structure Project where
  name : String
  servers : List Server
deriving DecidableEq, Repr

structure Config where
  global_command : String
  projects : List Project
deriving DecidableEq, Repr

def dfltServer : Server := ⟨"", "", ""⟩

def dfltProject : Project := ⟨"", []⟩

/-! ## Search filter (main, lines 248-257)

Go lowercases both sides with `strings.ToLower` and tests containment
with `strings.Contains`.  We embed the lowercasing by mapping each
character to its code point, lowering the ASCII letters (the case
mapping relevant to the claims), and testing contiguous-sublist
containment on the resulting code lists.  `listContains hay needle` is
true iff `needle` occurs contiguously in `hay` (always true for the
empty needle), exactly the contract of `strings.Contains`. -/

def lowerCode (c : Char) : Nat :=
  let n := c.toNat
  if 65 ≤ n ∧ n ≤ 90 then n + 32 else n

def lowerCodes (s : String) : List Nat := s.data.map lowerCode

def listContains (hay needle : List Nat) : Bool :=
  hay.tails.any (fun t => needle.isPrefixOf t)

def matchesSearch (search : String) (s : Server) : Bool :=
  listContains (lowerCodes s.name) (lowerCodes search) ||
    listContains (lowerCodes s.description) (lowerCodes search)

/-- Embeds the nested loop of main lines 250-257 building `flatServers`. -/
def flatServers (cfg : Config) (search : String) : List Server :=
  cfg.projects.foldl
    (fun acc p =>
      p.servers.foldl
        (fun acc2 s => if matchesSearch search s then acc2 ++ [s] else acc2)
        acc)
    []

/-! ## Output filter (`bellFilter.Write`, lines 42-62)

The underlying writer is an oracle `w` from the byte list it is asked to
write to the pair (count accepted, optional error).  `bellWrite` returns
the `(n, err)` pair the filter reports to its caller, together with the
list of write calls issued to the underlying writer. -/

def bellWrite {ε : Type} (w : List Nat → Nat × Option ε) (p : List Nat) :
    (Nat × Option ε) × List (List Nat) :=
  if p = [] then ((0, none), [])
  else
    let filtered := p.foldl (fun acc c => if c ≠ 7 then acc ++ [c] else acc) []
    let r := w filtered
    match r.2 with
    | some e => ((r.1, some e), [filtered])
    | none => ((p.length, none), [filtered])

/-! ## Command resolution (`replaceServer`, `stringReplace` and main
lines 296-299, 382-386)

`stringReplace` embeds `strings.ReplaceAll`: every non-overlapping
occurrence of `pat`, scanning left to right, is replaced by `rep`.  The
recursion is driven by a character-count fuel (each step consumes at
least one character of the remaining input, so `s.length` fuel always
suffices); this keeps the definition kernel-executable. -/

def replaceListAux (pat rep : List Char) : Nat → List Char → List Char
  | 0, s => s
  | _ + 1, [] => []
  | fuel + 1, c :: rest =>
    if pat.isPrefixOf (c :: rest) then
      rep ++ replaceListAux pat rep fuel ((c :: rest).drop pat.length)
    else
      c :: replaceListAux pat rep fuel rest

def stringReplace (s old new : String) : String :=
  if old = "" then s
  else ⟨replaceListAux old.data new.data s.data.length s.data⟩

def replaceServer (template server : String) : String :=
  stringReplace template "{server}" server

def resolveCommand (globalCommand : String) (s : Server) : String :=
  if s.command = "" then replaceServer globalCommand s.name else s.command

/-! ## Menu labels -/

def quitLabel : String := "⏻ Quit"

def backLabel : String := "⬅ Back"

def helpLine : String :=
  "Use ↑/↓ to navigate, Enter to select. Select \x27⏻ Quit\x27 to exit."

def serverLabel (s : Server) : String := s.name ++ " - " ++ s.description

/-! ## Menu navigator (the loop of `main`, lines 240-402)

The interactive widget, the configuration file and the child-process
results are oracles:

* `file t` is the configuration obtained by the `t`-th call to
  `loadConfig` (`none` embeds a load failure);
* `ev k` is the outcome of the `k`-th `promptui.Select.Run` call: either
  a selected `(index, label)` pair, or one of the widget's error values
  (`ErrInterrupt`, `ErrEOF`, or any other error);
* `cmdRes d` tells whether the `d`-th dispatched child command ran
  without error (`cmd.Run()` in the Go source).

A run produces a `RunResult` (the process exit code, or fuel
exhaustion, since the Go loops are unbounded) together with a `Trace`
recording, in order, the menus presented to the widget, the command
strings dispatched, and the user-facing messages printed. -/

inductive Menu where
  | flatList (items : List String)
  | projectList (items : List String)
  | serverList (items : List String)
deriving DecidableEq, Repr

structure Trace where
  menus : List Menu
  dispatched : List String
  msgs : List String
deriving DecidableEq, Repr

/-- Prepend the effects of one loop step to the trace of the rest of the
run. -/
def Trace.pre (ms : List Menu) (ds : List String) (gs : List String)
    (tr : Trace) : Trace :=
  ⟨ms ++ tr.menus, ds ++ tr.dispatched, gs ++ tr.msgs⟩

inductive RunResult where
  | exit (code : Nat)
  | fuelOut
deriving DecidableEq, Repr

inductive PromptErr where
  | interrupt
  | eofErr
  | other (msg : String)
deriving DecidableEq, Repr

inductive Outcome where
  | ok (idx : Int) (result : String)
  | err (e : PromptErr)
deriving DecidableEq, Repr

/-- States of the hierarchical navigator: `atProject t ph` is the top of
the outer `for` loop (about to perform the `t`-th config reload, with
`ph` the `printedHelp` flag); `atServer t gc servers snames` is the head
of the inner server-selection loop, holding the `global_command`, the
chosen project's servers and the display list built on entry (the Go
code builds `serverNames` once per project selection). -/
inductive NavState where
  | atProject (t : Nat) (ph : Bool)
  | atServer (t : Nat) (gc : String) (servers : List Server)
      (snames : List String)
deriving DecidableEq, Repr

/-- Messages printed around a dispatch (`Running: ...`, and
`Command failed` when `cmd.Run()` errors). -/
def dispatchMsgs (cmd : String) (ok : Bool) : List String :=
  if ok then ["Running: " ++ cmd] else ["Running: " ++ cmd, "Command failed"]

/-- One-step embedding of the hierarchical navigation loop of `main`
(lines 240-246 and 310-401): fuel-indexed interpreter.  `k` counts
widget invocations, `d` counts dispatched commands. -/
def navRun (file : Nat → Option Config) (ev : Nat → Outcome)
    (cmdRes : Nat → Bool) :
    NavState → Nat → Nat → Nat → RunResult × Trace
  | _, 0, _, _ => (.fuelOut, ⟨[], [], []⟩)
  | .atProject t ph, fuel + 1, k, d =>
    match file t with
    | none => (.exit 1, ⟨[], [], ["Error loading config"]⟩)
    | some cfg =>
      let names := cfg.projects.map Project.name ++ [quitLabel]
      let hmsgs := if ph then [] else [helpLine]
      match ev k with
      | .err e =>
        if e = PromptErr.interrupt ∨ e = PromptErr.eofErr then
          (.exit 0, ⟨[.projectList names], [], hmsgs ++ ["Exiting."]⟩)
        else
          (.exit 0, ⟨[.projectList names], [], hmsgs ++ ["Prompt failed"]⟩)
      | .ok pidx presult =>
        if presult = quitLabel then
          (.exit 0, ⟨[.projectList names], [], hmsgs ++ ["Exiting."]⟩)
        else if pidx < 0 ∨ (cfg.projects.length : Int) ≤ pidx then
          (.exit 0, ⟨[.projectList names], [], hmsgs⟩)
        else
          let project := cfg.projects.getD pidx.toNat dfltProject
          let snames := project.servers.map serverLabel ++ [backLabel]
          let r := navRun file ev cmdRes
            (.atServer t cfg.global_command project.servers snames)
            fuel (k + 1) d
          (r.1, Trace.pre [.projectList names] [] hmsgs r.2)
  | .atServer t gc servers snames, fuel + 1, k, d =>
    match ev k with
    | .err e =>
      if e = PromptErr.interrupt ∨ e = PromptErr.eofErr then
        (.exit 0, ⟨[.serverList snames], [], ["Exiting."]⟩)
      else
        (.exit 0, ⟨[.serverList snames], [], ["Prompt failed"]⟩)
    | .ok sidx sresult =>
      if sresult = backLabel then
        let r := navRun file ev cmdRes (.atProject (t + 1) true) fuel (k + 1) d
        (r.1, Trace.pre [.serverList snames] [] [] r.2)
      else if sidx < 0 ∨ (servers.length : Int) ≤ sidx then
        let r := navRun file ev cmdRes (.atServer t gc servers snames)
          fuel (k + 1) d
        (r.1, Trace.pre [.serverList snames] [] [] r.2)
      else
        let server := servers.getD sidx.toNat dfltServer
        let cmd := resolveCommand gc server
        let r := navRun file ev cmdRes (.atServer t gc servers snames)
          fuel (k + 1) (d + 1)
        (r.1, Trace.pre [.serverList snames] [cmd] (dispatchMsgs cmd (cmdRes d)) r.2)

/-- Embedding of the flat-filtered branch of `main` (lines 248-309).
Every path of that branch returns from `main`, so only the first config
load (`file 0`), the first widget outcome (`ev 0`) and the first command
result (`cmdRes 0`) can be consulted. -/
def runFlat (file : Nat → Option Config) (ev : Nat → Outcome)
    (cmdRes : Nat → Bool) (search : String) : RunResult × Trace :=
  match file 0 with
  | none => (.exit 1, ⟨[], [], ["Error loading config"]⟩)
  | some cfg =>
    let flat := flatServers cfg search
    if flat = [] then
      (.exit 0, ⟨[], [], ["No servers found matching: " ++ search]⟩)
    else
      let names := flat.map serverLabel ++ [quitLabel]
      match ev 0 with
      | .err e =>
        if e = PromptErr.interrupt ∨ e = PromptErr.eofErr then
          (.exit 0, ⟨[.flatList names], [], ["Exiting."]⟩)
        else
          (.exit 0, ⟨[.flatList names], [], ["Prompt failed"]⟩)
      | .ok sidx sresult =>
        if sresult = quitLabel then
          (.exit 0, ⟨[.flatList names], [], ["Exiting."]⟩)
        else if sidx < 0 ∨ (flat.length : Int) ≤ sidx then
          (.exit 0, ⟨[.flatList names], [], []⟩)
        else
          let cmd := resolveCommand cfg.global_command (flat.getD sidx.toNat dfltServer)
          (.exit 0, ⟨[.flatList names], [cmd], dispatchMsgs cmd (cmdRes 0)⟩)

/-- Top of the navigation loop: `main` chooses the flat branch exactly
when the search string is non-empty (line 248). -/
def runMain (file : Nat → Option Config) (ev : Nat → Outcome)
    (cmdRes : Nat → Bool) (search : String) (fuel : Nat) : RunResult × Trace :=
  if search = "" then navRun file ev cmdRes (.atProject 0 false) fuel 0 0
  else runFlat file ev cmdRes search

/-! ## Self-update routine tail (main, lines 179-198)

The md5 sums of the downloaded temporary file and of the current
executable, and the success of the `os.Rename` call, are inputs; the
function returns the file-system operations attempted, the messages
printed, and the exit code. -/

inductive FsOp where
  | rename (src dst : String)
  | remove (path : String)
deriving DecidableEq, Repr

def updateFinish (tmpSum exeSum tmpFile exePath ver : String)
    (renameOk : Bool) : List FsOp × List String × Nat :=
  if tmpSum ≠ exeSum then
    if renameOk then
      ([FsOp.rename tmpFile exePath], ["Update complete. New version: "], 0)
    else
      ([FsOp.rename tmpFile exePath], ["Error replacing executable"], 1)
  else
    ([FsOp.remove tmpFile],
      ["No update needed, already on version: " ++ ver], 0)

/-- Claim-side description of the Output Filter: the input with every
bell byte (7) removed, the order of the other bytes preserved. -/
def removeBells : List Nat → List Nat
  | [] => []
  | c :: rest => if c ≠ 7 then c :: removeBells rest else removeBells rest

/-- Spec-side flattening order (§4.3 of the spec): the concatenation of
every project's servers, projects in declaration order. -/
def specAllServers (cfg : Config) : List Server :=
  cfg.projects.flatMap Project.servers

/-- Concrete configuration used by the witnesses. -/
def cfg0 : Config := ⟨"g \x7bserver\x7d", [⟨"P", [⟨"a", "b", ""⟩]⟩]⟩

def file0 : Nat → Option Config := fun _ => some cfg0

def crT : Nat → Bool := fun _ => true

/-- Concrete configuration whose only project is named like the Quit
label. -/
def cfgQ : Config := ⟨"g", [⟨quitLabel, [⟨"a", "b", ""⟩]⟩]⟩

/-! ## Helper lemmas -/

@[simp]
theorem Trace.pre_menus (ms : List Menu) (ds gs : List String) (tr : Trace) :
    (Trace.pre ms ds gs tr).menus = ms ++ tr.menus := rfl

@[simp]
theorem Trace.pre_dispatched (ms : List Menu) (ds gs : List String) (tr : Trace) :
    (Trace.pre ms ds gs tr).dispatched = ds ++ tr.dispatched := rfl

@[simp]
theorem Trace.pre_msgs (ms : List Menu) (ds gs : List String) (tr : Trace) :
    (Trace.pre ms ds gs tr).msgs = gs ++ tr.msgs := rfl

theorem foldl_filter_servers (search : String) (l : List Server) :
    ∀ acc : List Server,
      l.foldl (fun acc2 s => if matchesSearch search s then acc2 ++ [s] else acc2) acc
        = acc ++ l.filter (matchesSearch search) := by
  induction l with
  | nil => intro acc; simp
  | cons s ls ih =>
    intro acc
    by_cases h : matchesSearch search s
    · simp [h, ih, List.filter_cons]
    · simp [h, ih, List.filter_cons]

theorem foldl_filter_bell (l : List Nat) :
    ∀ acc : List Nat,
      l.foldl (fun acc c => if c ≠ 7 then acc ++ [c] else acc) acc
        = acc ++ removeBells l := by
  induction l with
  | nil => intro acc; simp [removeBells]
  | cons c ls ih =>
    intro acc
    simp only [List.foldl_cons]
    by_cases h : c = 7
    · rw [if_neg (not_not_intro h), ih]
      simp [removeBells, h]
    · rw [if_pos h, ih]
      simp [removeBells, h]

theorem flatServers_foldl (search : String) (ps : List Project) :
    ∀ acc : List Server,
      ps.foldl
        (fun acc p =>
          p.servers.foldl
            (fun acc2 s => if matchesSearch search s then acc2 ++ [s] else acc2)
            acc)
        acc
      = acc ++ (ps.flatMap Project.servers).filter (matchesSearch search) := by
  induction ps with
  | nil => intro acc; simp
  | cons p ps ih =>
    intro acc
    rw [List.foldl_cons, foldl_filter_servers, ih]
    simp [List.flatMap_cons, List.filter_append, List.append_assoc]

theorem flatServers_eq_filter (cfg : Config) (search : String) :
    flatServers cfg search = (specAllServers cfg).filter (matchesSearch search) := by
  rw [flatServers, flatServers_foldl, specAllServers]
  simp

/-! ## Claim theorems -/


/-- C1: when a real server is selected in the flat-filtered menu, the
dispatched command string is the server's `command` field verbatim when
that field is non-empty (the global command is ignored), and otherwise
`global_command` with every occurrence of the token `{server}` replaced
by the server's name. -/
theorem claim_C1_command_resolution
    (file : Nat → Option Config) (ev : Nat → Outcome) (cmdRes : Nat → Bool)
    (search : String) (cfg : Config) (j : Nat) (r : String)
    (hf : file 0 = some cfg)
    (hj : j < (flatServers cfg search).length)
    (hr : r ≠ quitLabel)
    (hev : ev 0 = Outcome.ok (Int.ofNat j) r) :
    (runFlat file ev cmdRes search).2.dispatched =
      [if ((flatServers cfg search).getD j dfltServer).command = ""
       then stringReplace cfg.global_command "{server}"
              ((flatServers cfg search).getD j dfltServer).name
       else ((flatServers cfg search).getD j dfltServer).command] := by
  have hne : flatServers cfg search ≠ [] := by
    intro h
    rw [h] at hj
    simp at hj
  simp [runFlat, hf, hne, hev, hr, resolveCommand, replaceServer]
  rw [if_neg (by omega)]

/-- C1 witness: a concrete flat-mode run dispatching a command built from
the global template. -/
theorem claim_C1_witness :
    (runFlat (fun _ => some ⟨"pamssh {server}", [⟨"A", [⟨"s1", "d1", ""⟩]⟩]⟩)
        (fun _ => Outcome.ok (Int.ofNat 0) "s1 - d1") (fun _ => true)
        "d1").2.dispatched = ["pamssh s1"] := by
  have h := claim_C1_command_resolution
    (fun _ => some ⟨"pamssh {server}", [⟨"A", [⟨"s1", "d1", ""⟩]⟩]⟩)
    (fun _ => Outcome.ok (Int.ofNat 0) "s1 - d1") (fun _ => true)
    "d1" ⟨"pamssh {server}", [⟨"A", [⟨"s1", "d1", ""⟩]⟩]⟩ 0 "s1 - d1"
    rfl (by decide) (by decide) rfl
  rw [h]
  rfl

/-- C2: for every configuration and search string, the flat filtered list
is exactly the concatenation of every project's servers in declaration
order restricted to those whose name or description contains the search
string as a case-insensitive substring; membership in it is equivalent to
occurring in the configuration and matching the search. -/
theorem claim_C2_filter_engine (cfg : Config) (search : String) :
    flatServers cfg search = (specAllServers cfg).filter (matchesSearch search) ∧
    ∀ s : Server, s ∈ flatServers cfg search ↔
      s ∈ specAllServers cfg ∧ matchesSearch search s = true := by
  refine ⟨flatServers_eq_filter cfg search, fun s => ?_⟩
  rw [flatServers_eq_filter]
  simp [List.mem_filter]

/-- C3: every write through the bell filter forwards to the underlying
writer exactly the input with every bell byte (7) removed, in order;
when the underlying write returns no error the filter reports the whole
original length accepted, and when it returns an error the filter
reports the underlying writer's count together with that error. -/
theorem claim_C3_bell_filter {ε : Type} (w : List Nat → Nat × Option ε)
    (p : List Nat) :
    (bellWrite w p).2.flatten = removeBells p ∧
    ((w (removeBells p)).2 = none → (bellWrite w p).1 = (p.length, none)) ∧
    (p ≠ [] → ∀ n e, w (removeBells p) = (n, some e) →
      (bellWrite w p).1 = (n, some e)) := by
  by_cases hp : p = []
  · subst hp
    exact ⟨rfl, fun _ => rfl, fun h => absurd rfl h⟩
  · have hfold : List.foldl (fun acc c => if c ≠ 7 then acc ++ [c] else acc) [] p
        = removeBells p := by
      simpa using foldl_filter_bell p []
    have hb : bellWrite w p =
        (match (w (removeBells p)).2 with
         | some e => (((w (removeBells p)).1, some e), [removeBells p])
         | none => ((p.length, none), [removeBells p])) := by
      unfold bellWrite
      rw [if_neg hp, hfold]
    rcases hw : w (removeBells p) with ⟨n, err⟩
    rw [hw] at hb
    cases err with
    | none =>
      refine ⟨?_, fun _ => ?_, fun _ m e hme => ?_⟩
      · rw [hb]
        simp
      · rw [hb]
      · simp at hme
    | some e0 =>
      refine ⟨?_, fun hn => ?_, fun _ m e hme => ?_⟩
      · rw [hb]
        simp
      · simp at hn
      · injection hme with h1 h2
        subst h1
        injection h2 with h3
        subst h3
        rw [hb]

/-- C3 witness: concrete writes through the bell filter, one with a
succeeding underlying writer, one with a failing one. -/
theorem claim_C3_witness :
    (bellWrite (fun l => (l.length, (none : Option String))) [1, 7, 2]).1
        = (3, none) ∧
    (bellWrite (fun _ => (1, some "boom")) [1, 7, 2]).1 = (1, some "boom") := by
  constructor
  · exact (claim_C3_bell_filter (fun l => (l.length, (none : Option String)))
      [1, 7, 2]).2.1 rfl
  · exact (claim_C3_bell_filter (fun _ => (1, (some "boom" : Option String)))
      [1, 7, 2]).2.2 (by decide) 1 "boom" rfl

/-- C4: selecting the synthetic Quit entry in the flat list or in the
project list terminates the run with exit code 0, printing the exit
message and dispatching no command; selecting the synthetic Back entry
in the hierarchical server list transitions back to project selection
with the reload counter advanced, dispatching nothing, and the project
list subsequently shown is built from the freshly reloaded
configuration. -/
theorem claim_C4_quit_back :
    (∀ (file : Nat → Option Config) (ev : Nat → Outcome) (cmdRes : Nat → Bool)
        (search : String) (cfg : Config) (i : Int),
      file 0 = some cfg → flatServers cfg search ≠ [] →
      ev 0 = Outcome.ok i quitLabel →
      runFlat file ev cmdRes search =
        (.exit 0,
          ⟨[.flatList ((flatServers cfg search).map serverLabel ++ [quitLabel])],
            [], ["Exiting."]⟩)) ∧
    (∀ (file : Nat → Option Config) (ev : Nat → Outcome) (cmdRes : Nat → Bool)
        (t : Nat) (ph : Bool) (fuel k d : Nat) (cfg : Config) (i : Int),
      file t = some cfg → ev k = Outcome.ok i quitLabel →
      navRun file ev cmdRes (.atProject t ph) (fuel + 1) k d =
        (.exit 0,
          ⟨[.projectList (cfg.projects.map Project.name ++ [quitLabel])], [],
            (if ph then [] else [helpLine]) ++ ["Exiting."]⟩)) ∧
    (∀ (file : Nat → Option Config) (ev : Nat → Outcome) (cmdRes : Nat → Bool)
        (t : Nat) (gc : String) (servers : List Server) (snames : List String)
        (fuel k d : Nat) (i : Int),
      ev k = Outcome.ok i backLabel →
      navRun file ev cmdRes (.atServer t gc servers snames) (fuel + 1) k d =
        ((navRun file ev cmdRes (.atProject (t + 1) true) fuel (k + 1) d).1,
          Trace.pre [.serverList snames] [] []
            (navRun file ev cmdRes (.atProject (t + 1) true) fuel (k + 1) d).2)) ∧
    (∀ (file : Nat → Option Config) (ev : Nat → Outcome) (cmdRes : Nat → Bool)
        (t : Nat) (ph : Bool) (fuel k d : Nat) (cfg : Config),
      file t = some cfg →
      (navRun file ev cmdRes (.atProject t ph) (fuel + 1) k d).2.menus.head? =
        some (.projectList (cfg.projects.map Project.name ++ [quitLabel]))) := by
  refine ⟨?_, ?_, ?_, ?_⟩
  · intro file ev cmdRes search cfg i hf hne hev
    simp [runFlat, hf, hne, hev]
  · intro file ev cmdRes t ph fuel k d cfg i hf hev
    simp [navRun, hf, hev]
  · intro file ev cmdRes t gc servers snames fuel k d i hev
    simp [navRun, hev]
  · intro file ev cmdRes t ph fuel k d cfg hf
    cases hev : ev k with
    | err e =>
      by_cases hie : e = PromptErr.interrupt ∨ e = PromptErr.eofErr
      · simp [navRun, hf, hev, hie]
      · simp [navRun, hf, hev, hie]
    | ok i r =>
      by_cases hq : r = quitLabel
      · simp [navRun, hf, hev, hq]
      · by_cases hrange : i < 0 ∨ (cfg.projects.length : Int) ≤ i
        · simp [navRun, hf, hev, hq, hrange]
        · simp [navRun, hf, hev, hq, hrange]

/-- C4 witness: concrete runs exercising Quit in the flat and project
menus, Back in the server menu, and the reloaded project list. -/
theorem claim_C4_witness :
    runFlat file0 (fun _ => Outcome.ok 1 quitLabel) crT "b" =
      (.exit 0, ⟨[.flatList ["a - b", quitLabel]], [], ["Exiting."]⟩) ∧
    navRun file0 (fun _ => Outcome.ok 1 quitLabel) crT (.atProject 0 false) 3 0 0 =
      (.exit 0, ⟨[.projectList ["P", quitLabel]], [], [helpLine, "Exiting."]⟩) ∧
    navRun file0 (fun _ => Outcome.ok 0 backLabel) crT
        (.atServer 0 "g" [] ["x"]) 3 0 0 =
      ((navRun file0 (fun _ => Outcome.ok 0 backLabel) crT (.atProject 1 true) 2 1 0).1,
        Trace.pre [.serverList ["x"]] [] []
          (navRun file0 (fun _ => Outcome.ok 0 backLabel) crT (.atProject 1 true) 2 1 0).2) ∧
    (navRun file0 (fun _ => Outcome.ok 1 quitLabel) crT (.atProject 0 false) 3 0 0).2.menus.head? =
      some (.projectList ["P", quitLabel]) := by
  obtain ⟨h1, h2, h3, h4⟩ := claim_C4_quit_back
  refine ⟨?_, ?_, ?_, ?_⟩
  · exact (h1 file0 (fun _ => Outcome.ok 1 quitLabel) crT "b" cfg0 1 rfl
      (by decide) rfl).trans (by decide)
  · exact (h2 file0 (fun _ => Outcome.ok 1 quitLabel) crT 0 false 2 0 0 cfg0 1
      rfl rfl).trans (by decide)
  · exact h3 file0 (fun _ => Outcome.ok 0 backLabel) crT 0 "g" [] ["x"] 2 0 0 0 rfl
  · exact (h4 file0 (fun _ => Outcome.ok 1 quitLabel) crT 0 false 2 0 0 cfg0
      rfl).trans (by decide)

/-- C5: an interrupt or end-of-input from the widget, at any of the three
widget invocation points, makes the run print the exit message and
terminate with exit code 0, dispatching no command. -/
theorem claim_C5_interrupt_eof :
    (∀ (file : Nat → Option Config) (ev : Nat → Outcome) (cmdRes : Nat → Bool)
        (search : String) (cfg : Config) (e : PromptErr),
      file 0 = some cfg → flatServers cfg search ≠ [] →
      ev 0 = Outcome.err e → (e = PromptErr.interrupt ∨ e = PromptErr.eofErr) →
      runFlat file ev cmdRes search =
        (.exit 0,
          ⟨[.flatList ((flatServers cfg search).map serverLabel ++ [quitLabel])],
            [], ["Exiting."]⟩)) ∧
    (∀ (file : Nat → Option Config) (ev : Nat → Outcome) (cmdRes : Nat → Bool)
        (t : Nat) (ph : Bool) (fuel k d : Nat) (cfg : Config) (e : PromptErr),
      file t = some cfg →
      ev k = Outcome.err e → (e = PromptErr.interrupt ∨ e = PromptErr.eofErr) →
      navRun file ev cmdRes (.atProject t ph) (fuel + 1) k d =
        (.exit 0,
          ⟨[.projectList (cfg.projects.map Project.name ++ [quitLabel])], [],
            (if ph then [] else [helpLine]) ++ ["Exiting."]⟩)) ∧
    (∀ (file : Nat → Option Config) (ev : Nat → Outcome) (cmdRes : Nat → Bool)
        (t : Nat) (gc : String) (servers : List Server) (snames : List String)
        (fuel k d : Nat) (e : PromptErr),
      ev k = Outcome.err e → (e = PromptErr.interrupt ∨ e = PromptErr.eofErr) →
      navRun file ev cmdRes (.atServer t gc servers snames) (fuel + 1) k d =
        (.exit 0, ⟨[.serverList snames], [], ["Exiting."]⟩)) := by
  refine ⟨?_, ?_, ?_⟩
  · intro file ev cmdRes search cfg e hf hne hev hie
    simp [runFlat, hf, hne, hev, hie]
  · intro file ev cmdRes t ph fuel k d cfg e hf hev hie
    simp [navRun, hf, hev, hie]
  · intro file ev cmdRes t gc servers snames fuel k d e hev hie
    simp [navRun, hev, hie]

/-- C5 witness: concrete interrupted runs at each widget point. -/
theorem claim_C5_witness :
    runFlat file0 (fun _ => Outcome.err PromptErr.interrupt) crT "b" =
      (.exit 0, ⟨[.flatList ["a - b", quitLabel]], [], ["Exiting."]⟩) ∧
    navRun file0 (fun _ => Outcome.err PromptErr.eofErr) crT (.atProject 0 true) 5 0 0 =
      (.exit 0, ⟨[.projectList ["P", quitLabel]], [], ["Exiting."]⟩) ∧
    navRun file0 (fun _ => Outcome.err PromptErr.interrupt) crT
        (.atServer 0 "g" [] ["x"]) 5 0 0 =
      (.exit 0, ⟨[.serverList ["x"]], [], ["Exiting."]⟩) := by
  obtain ⟨h1, h2, h3⟩ := claim_C5_interrupt_eof
  refine ⟨?_, ?_, ?_⟩
  · exact (h1 file0 (fun _ => Outcome.err PromptErr.interrupt) crT "b" cfg0
      PromptErr.interrupt rfl (by decide) rfl (Or.inl rfl)).trans (by decide)
  · exact (h2 file0 (fun _ => Outcome.err PromptErr.eofErr) crT 0 true 4 0 0 cfg0
      PromptErr.eofErr rfl rfl (Or.inr rfl)).trans (by decide)
  · exact h3 file0 (fun _ => Outcome.err PromptErr.interrupt) crT 0 "g" [] ["x"]
      4 0 0 PromptErr.interrupt rfl (Or.inl rfl)

theorem runFlat_shape (file : Nat → Option Config) (ev : Nat → Outcome)
    (cr : Nat → Bool) (search : String) :
    (∃ c, (runFlat file ev cr search).1 = RunResult.exit c) ∧
    (runFlat file ev cr search).2.dispatched.length ≤ 1 ∧
    (runFlat file ev cr search).2.menus.length ≤ 1 := by
  cases hf : file 0 with
  | none => simp [runFlat, hf]
  | some cfg =>
    by_cases hne : flatServers cfg search = []
    · simp [runFlat, hf, hne]
    · cases hev : ev 0 with
      | err e =>
        by_cases hie : e = PromptErr.interrupt ∨ e = PromptErr.eofErr
        · simp [runFlat, hf, hne, hev, hie]
        · simp [runFlat, hf, hne, hev, hie]
      | ok i r =>
        by_cases hq : r = quitLabel
        · simp [runFlat, hf, hne, hev, hq]
        · by_cases hrange : i < 0 ∨ ((flatServers cfg search).length : Int) ≤ i
          · simp [runFlat, hf, hne, hev, hq, hrange]
          · simp [runFlat, hf, hne, hev, hq, hrange]

theorem runFlat_cmdRes_indep (file : Nat → Option Config) (ev : Nat → Outcome)
    (search : String) (cr cr2 : Nat → Bool) :
    (runFlat file ev cr search).1 = (runFlat file ev cr2 search).1 ∧
    (runFlat file ev cr search).2.dispatched =
      (runFlat file ev cr2 search).2.dispatched := by
  cases hf : file 0 with
  | none => simp [runFlat, hf]
  | some cfg =>
    by_cases hne : flatServers cfg search = []
    · simp [runFlat, hf, hne]
    · cases hev : ev 0 with
      | err e =>
        by_cases hie : e = PromptErr.interrupt ∨ e = PromptErr.eofErr
        · simp [runFlat, hf, hne, hev, hie]
        · simp [runFlat, hf, hne, hev, hie]
      | ok i r =>
        by_cases hq : r = quitLabel
        · simp [runFlat, hf, hne, hev, hq]
        · by_cases hrange : i < 0 ∨ ((flatServers cfg search).length : Int) ≤ i
          · simp [runFlat, hf, hne, hev, hq, hrange]
          · simp [runFlat, hf, hne, hev, hq, hrange]

/-- C6: in flat-filtered mode (non-empty search string) the run always
terminates with a process exit, at most one command is dispatched, no
menu is ever presented twice (at most one menu total), and neither the
exit result nor the dispatched commands depend on whether the child
command succeeded or failed. -/
theorem claim_C6_flat_one_shot
    (file : Nat → Option Config) (ev : Nat → Outcome) (cmdRes : Nat → Bool)
    (search : String) (fuel : Nat) (h : search ≠ "") :
    (∃ c, (runMain file ev cmdRes search fuel).1 = RunResult.exit c) ∧
    (runMain file ev cmdRes search fuel).2.dispatched.length ≤ 1 ∧
    (runMain file ev cmdRes search fuel).2.menus.length ≤ 1 ∧
    (∀ cr : Nat → Bool,
      (runMain file ev cr search fuel).1 = (runMain file ev cmdRes search fuel).1 ∧
      (runMain file ev cr search fuel).2.dispatched =
        (runMain file ev cmdRes search fuel).2.dispatched) := by
  have hm : ∀ cr : Nat → Bool,
      runMain file ev cr search fuel = runFlat file ev cr search := by
    intro cr
    simp [runMain, h]
  rw [hm cmdRes]
  obtain ⟨h1, h2, h3⟩ := runFlat_shape file ev cmdRes search
  refine ⟨h1, h2, h3, fun cr => ?_⟩
  rw [hm cr]
  exact runFlat_cmdRes_indep file ev search cr cmdRes

/-- C6 witness: a concrete flat-mode run that dispatches once and exits. -/
theorem claim_C6_witness :
    (∃ c, (runMain file0 (fun _ => Outcome.ok 0 "a - b") crT "b" 9).1 =
      RunResult.exit c) ∧
    (runMain file0 (fun _ => Outcome.ok 0 "a - b") crT "b" 9).2.dispatched.length ≤ 1 ∧
    (runMain file0 (fun _ => Outcome.ok 0 "a - b") crT "b" 9).2.menus.length ≤ 1 := by
  obtain ⟨h1, h2, h3, _⟩ := claim_C6_flat_one_shot file0
    (fun _ => Outcome.ok 0 "a - b") crT "b" 9 (by decide)
  exact ⟨h1, h2, h3⟩

/-- C7: in flat-filtered mode, when the filter yields no match the run
prints the no-servers-found message and exits with code 0, presenting no
menu (the widget is never invoked) and dispatching no command. -/
theorem claim_C7_no_match
    (file : Nat → Option Config) (ev : Nat → Outcome) (cmdRes : Nat → Bool)
    (search : String) (cfg : Config) (fuel : Nat)
    (h : search ≠ "") (hf : file 0 = some cfg)
    (hempty : flatServers cfg search = []) :
    runMain file ev cmdRes search fuel =
      (.exit 0, ⟨[], [], ["No servers found matching: " ++ search]⟩) := by
  simp [runMain, h, runFlat, hf, hempty]

/-- C7 witness: a concrete search that matches no server. -/
theorem claim_C7_witness :
    runMain file0 (fun _ => Outcome.ok 0 "x") crT "zzz" 9 =
      (.exit 0, ⟨[], [], ["No servers found matching: zzz"]⟩) := by
  exact (claim_C7_no_match file0 (fun _ => Outcome.ok 0 "x") crT "zzz" cfg0 9
    (by decide) rfl (by decide)).trans (by decide)

/-- C8 counterexample: in the project menu, a widget index outside the
valid range (here 5, with a single project configured) terminates the
process with exit code 0 — only one menu is ever presented, so control
does not return to the enclosing loop as the claim states. -/
theorem claim_C8_counterexample :
    (navRun file0 (fun _ => Outcome.ok 5 "x") crT (.atProject 0 false) 10 0 0).1 =
      RunResult.exit 0 ∧
    (navRun file0 (fun _ => Outcome.ok 5 "x") crT (.atProject 0 false) 10 0 0).2.menus =
      [.projectList ["P", quitLabel]] ∧
    (navRun file0 (fun _ => Outcome.ok 5 "x") crT (.atProject 0 false) 10 0 0).2.dispatched =
      [] := by
  refine ⟨?_, ?_, ?_⟩ <;> decide

/-- C8 (amended): an out-of-range widget index never dispatches a
command; in the hierarchical server list the same server menu is
presented again (the inner loop continues), while in the flat list and
in the project list the run terminates with exit code 0. -/
theorem claim_C8_amended :
    (∀ (file : Nat → Option Config) (ev : Nat → Outcome) (cmdRes : Nat → Bool)
        (search : String) (cfg : Config) (i : Int) (r : String),
      file 0 = some cfg → flatServers cfg search ≠ [] →
      ev 0 = Outcome.ok i r → r ≠ quitLabel →
      (i < 0 ∨ ((flatServers cfg search).length : Int) ≤ i) →
      runFlat file ev cmdRes search =
        (.exit 0,
          ⟨[.flatList ((flatServers cfg search).map serverLabel ++ [quitLabel])],
            [], []⟩)) ∧
    (∀ (file : Nat → Option Config) (ev : Nat → Outcome) (cmdRes : Nat → Bool)
        (t : Nat) (ph : Bool) (fuel k d : Nat) (cfg : Config) (i : Int) (r : String),
      file t = some cfg → ev k = Outcome.ok i r → r ≠ quitLabel →
      (i < 0 ∨ (cfg.projects.length : Int) ≤ i) →
      navRun file ev cmdRes (.atProject t ph) (fuel + 1) k d =
        (.exit 0,
          ⟨[.projectList (cfg.projects.map Project.name ++ [quitLabel])], [],
            if ph then [] else [helpLine]⟩)) ∧
    (∀ (file : Nat → Option Config) (ev : Nat → Outcome) (cmdRes : Nat → Bool)
        (t : Nat) (gc : String) (servers : List Server) (snames : List String)
        (fuel k d : Nat) (i : Int) (r : String),
      ev k = Outcome.ok i r → r ≠ backLabel →
      (i < 0 ∨ (servers.length : Int) ≤ i) →
      navRun file ev cmdRes (.atServer t gc servers snames) (fuel + 1) k d =
        ((navRun file ev cmdRes (.atServer t gc servers snames) fuel (k + 1) d).1,
          Trace.pre [.serverList snames] [] []
            (navRun file ev cmdRes (.atServer t gc servers snames) fuel (k + 1) d).2)) := by
  refine ⟨?_, ?_, ?_⟩
  · intro file ev cmdRes search cfg i r hf hne hev hq hrange
    simp [runFlat, hf, hne, hev, hq, hrange]
  · intro file ev cmdRes t ph fuel k d cfg i r hf hev hq hrange
    simp [navRun, hf, hev, hq, hrange]
  · intro file ev cmdRes t gc servers snames fuel k d i r hev hq hrange
    simp [navRun, hev, hq, hrange]

/-- C8 witness: concrete out-of-range selections at each menu. -/
theorem claim_C8_amended_witness :
    runFlat file0 (fun _ => Outcome.ok 5 "x") crT "b" =
      (.exit 0, ⟨[.flatList ["a - b", quitLabel]], [], []⟩) ∧
    navRun file0 (fun _ => Outcome.ok 5 "x") crT (.atProject 0 false) 3 0 0 =
      (.exit 0, ⟨[.projectList ["P", quitLabel]], [], [helpLine]⟩) ∧
    navRun file0 (fun _ => Outcome.ok 5 "x") crT
        (.atServer 0 "g" [⟨"a", "b", ""⟩] ["a - b"]) 3 0 0 =
      ((navRun file0 (fun _ => Outcome.ok 5 "x") crT
          (.atServer 0 "g" [⟨"a", "b", ""⟩] ["a - b"]) 2 1 0).1,
        Trace.pre [.serverList ["a - b"]] [] []
          (navRun file0 (fun _ => Outcome.ok 5 "x") crT
            (.atServer 0 "g" [⟨"a", "b", ""⟩] ["a - b"]) 2 1 0).2) := by
  obtain ⟨h1, h2, h3⟩ := claim_C8_amended
  refine ⟨?_, ?_, ?_⟩
  · exact (h1 file0 (fun _ => Outcome.ok 5 "x") crT "b" cfg0 5 "x" rfl (by decide)
      rfl (by decide) (by decide)).trans (by decide)
  · exact (h2 file0 (fun _ => Outcome.ok 5 "x") crT 0 false 2 0 0 cfg0 5 "x" rfl
      rfl (by decide) (by decide)).trans (by decide)
  · exact h3 file0 (fun _ => Outcome.ok 5 "x") crT 0 "g" [⟨"a", "b", ""⟩]
      ["a - b"] 2 0 0 5 "x" rfl (by decide) (by decide)

/-- C9: in the self-update routine, equal content hashes mean the
executable is not replaced — the temporary file is removed, the
no-update-needed message is reported and the exit code is 0 — while
different hashes make the routine rename the temporary file over the
executable path. -/
theorem claim_C9_update_hashes (tmpSum exeSum tmpFile exePath ver : String)
    (renameOk : Bool) :
    (tmpSum = exeSum →
      updateFinish tmpSum exeSum tmpFile exePath ver renameOk =
        ([FsOp.remove tmpFile],
          ["No update needed, already on version: " ++ ver], 0)) ∧
    (tmpSum ≠ exeSum →
      (updateFinish tmpSum exeSum tmpFile exePath ver renameOk).1 =
        [FsOp.rename tmpFile exePath]) := by
  constructor
  · intro h
    simp [updateFinish, h]
  · intro h
    cases renameOk <;> simp [updateFinish, h]

/-- C9 witness: concrete equal-hash and different-hash runs. -/
theorem claim_C9_witness :
    updateFinish "h1" "h1" "tmp" "exe" "dev" true =
      ([FsOp.remove "tmp"], ["No update needed, already on version: dev"], 0) ∧
    (updateFinish "h1" "h2" "tmp" "exe" "dev" true).1 =
      [FsOp.rename "tmp" "exe"] := by
  constructor
  · exact ((claim_C9_update_hashes "h1" "h1" "tmp" "exe" "dev" true).1 rfl).trans
      (by decide)
  · exact (claim_C9_update_hashes "h1" "h2" "tmp" "exe" "dev" true).2 (by decide)

/-- C10: synthetic entries are recognized by the selected label string,
so selecting a project literally named like the Quit label terminates
the run (the server list is never entered and nothing is dispatched);
real server display labels always contain the separator and therefore
never collide with the Quit or Back labels. -/
theorem claim_C10_label_collision :
    (∀ (file : Nat → Option Config) (ev : Nat → Outcome) (cmdRes : Nat → Bool)
        (t : Nat) (ph : Bool) (fuel k d : Nat) (cfg : Config) (j : Nat),
      file t = some cfg → j < cfg.projects.length →
      (cfg.projects.getD j dfltProject).name = quitLabel →
      ev k = Outcome.ok (Int.ofNat j) quitLabel →
      navRun file ev cmdRes (.atProject t ph) (fuel + 1) k d =
        (.exit 0,
          ⟨[.projectList (cfg.projects.map Project.name ++ [quitLabel])], [],
            (if ph then [] else [helpLine]) ++ ["Exiting."]⟩)) ∧
    (∀ s : Server, serverLabel s ≠ quitLabel ∧ serverLabel s ≠ backLabel) := by
  constructor
  · intro file ev cmdRes t ph fuel k d cfg j hf hj hname hev
    simp [navRun, hf, hev]
  · intro s
    have hmid : '-' ∈ (" - " : String).data := by decide
    have hmem : '-' ∈ (serverLabel s).data := by
      unfold serverLabel
      rw [String.data_append, String.data_append]
      exact List.mem_append.mpr (Or.inl (List.mem_append.mpr (Or.inr hmid)))
    constructor
    · intro h
      rw [h] at hmem
      exact absurd hmem (by decide)
    · intro h
      rw [h] at hmem
      exact absurd hmem (by decide)

/-- C10 witness: selecting the Quit-named project at its real index 0
exits instead of entering its server list. -/
theorem claim_C10_witness :
    navRun (fun _ => some cfgQ) (fun _ => Outcome.ok (Int.ofNat 0) quitLabel) crT
        (.atProject 0 true) 5 0 0 =
      (.exit 0, ⟨[.projectList [quitLabel, quitLabel]], [], ["Exiting."]⟩) ∧
    serverLabel ⟨"n", "d", ""⟩ ≠ quitLabel := by
  obtain ⟨h1, h2⟩ := claim_C10_label_collision
  constructor
  · exact (h1 (fun _ => some cfgQ) (fun _ => Outcome.ok (Int.ofNat 0) quitLabel)
      crT 0 true 4 0 0 cfgQ 0 rfl (by decide) (by decide) rfl).trans (by decide)
  · exact (h2 ⟨"n", "d", ""⟩).1

end SSHMenu
